import Mathlib

/-!
# Verification of the gym booking / conversation core

Shallow embedding of the booking engine (`app/services/booking_service.py`),
the conversation-state store (`app/services/member_service.py`,
`app/models/message.py`) and the message orchestrator
(`app/flows/handlers.py`, `app/routers/webhooks.py`).

Conventions of the embedding:
* instants are integers counting minutes (`datetime` values in the source);
  `timedelta(hours=h)` becomes `60 * h`;
* Python ints are `Int`;
* database rows live in lists in insertion order (SQLAlchemy's `.first()`
  on an unordered query returns the first row in that order);
* UUID primary keys become `Nat` keys drawn from a counter.
-/

namespace Gym

/-- `BookingStatus` from `app/models/booking.py`. -/
inductive BStatus
  | booked
  | waitlist
  | cancelled
  | attended
  | noShow
deriving DecidableEq, Repr

/-- The `Class` row (`app/models/booking.py`).  Fields that no modelled
operation reads (room, intensity, goal_tags, reminder flags, timestamps)
are omitted. -/
structure ClassSession where
  name : String
  classType : String
  trainerName : String
  scheduledAt : Int
  durationMins : Int
  capacity : Int
  bookedCount : Int
  waitlistCount : Int
  isCancelled : Bool
  cancellationReason : Option String
deriving DecidableEq, Repr

/-- The `ClassBooking` row (`app/models/booking.py`), keeping the fields the
modelled operations read and write. -/
structure Booking where
  memberId : Nat
  classId : Nat
  status : BStatus
  waitlistPosition : Option Int
deriving DecidableEq, Repr

/-- Database state seen by `BookingService`: class rows (keyed by id),
booking rows in insertion order, and the id counters. -/
structure GymState where
  classes : Nat → Option ClassSession
  bookings : List (Nat × Booking)
  nextClassId : Nat
  nextBookingId : Nat

def initState : GymState :=
  { classes := fun _ => none, bookings := [], nextClassId := 0, nextBookingId := 0 }

/-- `status in (BOOKED, WAITLIST)` — the "active booking" filter used
throughout `booking_service.py`. -/
def isActive (b : Booking) : Bool :=
  b.status == .booked || b.status == .waitlist

/-- Apply `f` to the class row with id `cid` (the source mutates the fetched
ORM object in place). -/
def updateClass (st : GymState) (cid : Nat) (f : ClassSession → ClassSession) : GymState :=
  { st with classes := fun i => if i = cid then (st.classes i).map f else st.classes i }

/-- Apply `f` to the first booking row with key `k` (row keys are unique, so
this is the row the source mutates). -/
def updateBooking : List (Nat × Booking) → Nat → (Booking → Booking) → List (Nat × Booking)
  | [], _, _ => []
  | e :: rest, k, f =>
      if e.1 = k then (e.1, f e.2) :: rest else e :: updateBooking rest k f

/-- Booking row with key `k`, if any. -/
def lookupB (st : GymState) (k : Nat) : Option Booking :=
  (st.bookings.find? (fun e => e.1 == k)).map (·.2)

/-- `BookingService.create_class`: insert a fresh class row with zeroed
counters and return its id. -/
def createClass (st : GymState) (name classType trainerName : String)
    (scheduledAt durationMins capacity : Int) : GymState × Nat :=
  let c : ClassSession :=
    { name, classType, trainerName, scheduledAt, durationMins, capacity,
      bookedCount := 0, waitlistCount := 0,
      isCancelled := false, cancellationReason := none }
  ({ st with
      classes := fun i => if i = st.nextClassId then some c else st.classes i,
      nextClassId := st.nextClassId + 1 },
    st.nextClassId)

/-- Result of `BookingService.book_class`, keeping the payload fields the
claims mention (success / error kind, conflict name and time, waitlist
position). -/
inductive BookResult
  | notFound
  | classCancelled
  | alreadyStarted
  | alreadyBooked
  | conflict (className : String) (time : Int)
  | okBooked
  | okWaitlisted (position : Int)
deriving DecidableEq, Repr

/-- Filter of the first (precise) conflict query in `book_class`
(lines 170–179): member's active booking joined to a non-cancelled class
whose `[scheduled_at, scheduled_at + duration)` interval overlaps
`[cs, ce)`.  `make_interval(0,0,0,0,0,duration_mins,0)` is a
`duration_mins`-minute interval. -/
def overlapPrimary (st : GymState) (m : Nat) (cs ce : Int) (e : Nat × Booking) : Bool :=
  e.2.memberId == m && isActive e.2 &&
    match st.classes e.2.classId with
    | some oc =>
        !oc.isCancelled && oc.scheduledAt < ce && oc.scheduledAt + oc.durationMins > cs
    | none => false

/-- Filter of the fallback conflict scan in `book_class` (lines 182–204):
same as `overlapPrimary` but pre-filtered to classes whose start lies within
±2 hours of the requested slot (`between` is inclusive), then the precise
Python overlap test. -/
def overlapFallback (st : GymState) (m : Nat) (cs ce : Int) (e : Nat × Booking) : Bool :=
  e.2.memberId == m && isActive e.2 &&
    match st.classes e.2.classId with
    | some oc =>
        !oc.isCancelled &&
        (cs - 120 ≤ oc.scheduledAt && oc.scheduledAt ≤ ce + 120) &&
        (cs < oc.scheduledAt + oc.durationMins && ce > oc.scheduledAt)
    | none => false

/-- The conflict lookup of `book_class`: the precise query first
(lines 170–179), and only when it found nothing, the ±2-hour pre-filtered
fallback scan (lines 181–204). -/
def findConflict (st : GymState) (m : Nat) (cs ce : Int) : Option (Nat × Booking) :=
  match st.bookings.find? (overlapPrimary st m cs ce) with
  | some e => some e
  | none => st.bookings.find? (overlapFallback st m cs ce)

/-- `BookingService.book_class`. -/
def bookClass (st : GymState) (m : Nat) (cid : Nat) (now : Int) : GymState × BookResult :=
  match st.classes cid with
  | none => (st, .notFound)
  | some c =>
    if c.isCancelled then (st, .classCancelled)
    else if c.scheduledAt < now then (st, .alreadyStarted)
    else if (st.bookings.find? fun e =>
        e.2.memberId == m && e.2.classId == cid && isActive e.2).isSome then
      (st, .alreadyBooked)
    else
      match findConflict st m c.scheduledAt (c.scheduledAt + c.durationMins) with
      | some e =>
        match st.classes e.2.classId with
        | some oc => (st, .conflict oc.name oc.scheduledAt)
        | none => (st, .conflict "" 0)   -- unreachable: both filters require the class row
      | none =>
        if c.bookedCount < c.capacity then
          let st1 := updateClass st cid fun c => { c with bookedCount := c.bookedCount + 1 }
          let b : Booking := { memberId := m, classId := cid, status := .booked,
                               waitlistPosition := none }
          let bs := st1.bookings ++ [(st.nextBookingId, b)]
          ({ st1 with bookings := bs, nextBookingId := st.nextBookingId + 1 }, .okBooked)
        else
          let pos := c.waitlistCount + 1
          let st1 := updateClass st cid fun c => { c with waitlistCount := c.waitlistCount + 1 }
          let b : Booking := { memberId := m, classId := cid, status := .waitlist,
                               waitlistPosition := some pos }
          let bs := st1.bookings ++ [(st.nextBookingId, b)]
          ({ st1 with bookings := bs, nextBookingId := st.nextBookingId + 1 },
            .okWaitlisted pos)

/-- Waitlisted booking rows of a class, in row order. -/
def waitlistRows (st : GymState) (cid : Nat) : List (Nat × Booking) :=
  st.bookings.filter fun e => e.2.classId == cid && e.2.status == .waitlist

/-- `ORDER BY waitlist_position` comparison (positions of waitlisted rows are
always set at creation; a missing position sorts first, ties keep row
order). -/
def posLe (e e' : Nat × Booking) : Bool :=
  match e.2.waitlistPosition, e'.2.waitlistPosition with
  | none, _ => true
  | some _, none => false
  | some a, some b => a ≤ b

/-- First row of the waitlist ordered by `waitlist_position`
(`ORDER BY waitlist_position ... .first()`). -/
def minPosEntry : List (Nat × Booking) → Option (Nat × Booking)
  | [] => none
  | e :: rest =>
      match minPosEntry rest with
      | none => some e
      | some e' => if posLe e e' then some e else some e'

/-- `BookingService._promote_from_waitlist`. -/
def promoteFromWaitlist (st : GymState) (cid : Nat) : GymState :=
  match st.classes cid with
  | none => st
  | some c =>
    if c.waitlistCount == 0 then st
    else
      match minPosEntry (waitlistRows st cid) with
      | none => st
      | some e =>
        let bs := updateBooking st.bookings e.1
          (fun b => { b with status := .booked, waitlistPosition := none })
        let st1 := { st with bookings := bs }
        updateClass st1 cid fun c =>
          { c with bookedCount := c.bookedCount + 1, waitlistCount := c.waitlistCount - 1 }

/-- The `booking_id` / `class_id` reference accepted by `cancel_booking`. -/
inductive CancelRef
  | byBooking (bid : Nat)
  | byClass (cid : Nat)
  | noRef
deriving DecidableEq, Repr

/-- Result of `BookingService.cancel_booking`. -/
inductive CancelResult
  | provideRef
  | notFound
  | windowViolation
  | success
deriving DecidableEq, Repr

/-- The query of `cancel_booking`: the member's first active booking matching
the reference. -/
def cancelTarget (st : GymState) (m : Nat) (ref : CancelRef) : Option (Nat × Booking) :=
  st.bookings.find? fun e =>
    e.2.memberId == m &&
    (match ref with
     | .byBooking bid => e.1 == bid
     | .byClass cid => e.2.classId == cid
     | .noRef => false) &&
    isActive e.2

/-- Body of `cancel_booking` once a reference was supplied.  The 4-hour
window check (`hours_until < 4`) becomes `scheduledAt - now < 240`
minutes. -/
def cancelBookingCore (st : GymState) (m : Nat) (ref : CancelRef) (now : Int) :
    GymState × CancelResult :=
  match cancelTarget st m ref with
  | none => (st, .notFound)
  | some (k, b) =>
    match st.classes b.classId with
    | none => (st, .notFound)   -- unreachable: bookings are created for existing classes
    | some c =>
      if c.scheduledAt - now < 240 then (st, .windowViolation)
      else
        let st1 :=
          if b.status == BStatus.booked then
            promoteFromWaitlist
              (updateClass st b.classId fun c =>
                { c with bookedCount := max 0 (c.bookedCount - 1) })
              b.classId
          else
            updateClass st b.classId fun c =>
              { c with waitlistCount := max 0 (c.waitlistCount - 1) }
        let bs := updateBooking st1.bookings k (fun b => { b with status := .cancelled })
        ({ st1 with bookings := bs }, .success)

/-- `BookingService.cancel_booking` ("Provide booking_id or class_id" when
no reference is given). -/
def cancelBooking (st : GymState) (m : Nat) (ref : CancelRef) (now : Int) :
    GymState × CancelResult :=
  match ref with
  | .noRef => (st, .provideRef)
  | _ => cancelBookingCore st m ref now

/-- `BookingService.cancel_class`: flag the class cancelled, record the
reason, and bulk-update the rows matching
`class_id == cid AND status == BOOKED` to `CANCELLED`. -/
def cancelClass (st : GymState) (cid : Nat) (reason : Option String) : GymState :=
  match st.classes cid with
  | none => st
  | some _ =>
    let st1 := updateClass st cid fun c =>
      { c with isCancelled := true, cancellationReason := reason }
    { st1 with bookings := st1.bookings.map (fun e =>
        if e.2.classId == cid && e.2.status == BStatus.booked then
          (e.1, { e.2 with status := BStatus.cancelled })
        else e) }

/-- `BookingService.mark_attendance`. -/
def markAttendance (st : GymState) (bid : Nat) (attended : Bool) :
    GymState × Option Booking :=
  match st.bookings.find? (fun e => e.1 == bid) with
  | none => (st, none)
  | some (k, b) =>
    let b' := if attended then { b with status := BStatus.attended }
              else { b with status := BStatus.noShow }
    ({ st with bookings := updateBooking st.bookings k (fun _ => b') }, some b')

/-- One external call into `BookingService`. -/
inductive Event
  | create (name classType trainerName : String) (scheduledAt durationMins capacity : Int)
  | book (m : Nat) (cid : Nat) (now : Int)
  | cancel (m : Nat) (ref : CancelRef) (now : Int)
  | cancelCls (cid : Nat) (reason : Option String)
  | attend (bid : Nat) (attended : Bool)
deriving DecidableEq, Repr

def stepEv (st : GymState) : Event → GymState
  | .create n ct tn s d cap => (createClass st n ct tn s d cap).1
  | .book m cid now => (bookClass st m cid now).1
  | .cancel m ref now => (cancelBooking st m ref now).1
  | .cancelCls cid r => cancelClass st cid r
  | .attend bid a => (markAttendance st bid a).1

/-- State after a sequence of service calls, starting from the empty store. -/
def run (tr : List Event) : GymState := tr.foldl stepEv initState

/-- The spec's data-model constraint on class creation: `capacity` is an
int ≥ 1 (spec §3). -/
def evOk : Event → Prop
  | .create _ _ _ _ _ cap => 1 ≤ cap
  | _ => True

instance : DecidablePred evOk := by
  intro e; cases e <;> simp [evOk] <;> infer_instance

end Gym


namespace Gym

/-! ## Counter invariant (claim C1) -/

/-- Per-class counter sanity: `0 ≤ booked_count ≤ capacity`, together with the
spec's creation constraint `capacity ≥ 1` (carried along because the
promote-on-cancel path needs it). -/
def ClassOk (c : ClassSession) : Prop :=
  0 ≤ c.bookedCount ∧ c.bookedCount ≤ c.capacity ∧ 1 ≤ c.capacity

/-- State invariant: every class row satisfies `ClassOk`. -/
def Inv (st : GymState) : Prop :=
  ∀ cid c, st.classes cid = some c → ClassOk c

lemma inv_of_classes_eq {st st' : GymState} (h : st'.classes = st.classes)
    (hI : Inv st) : Inv st' := by
  intro cid c hc
  exact hI cid c (h ▸ hc)

lemma updateClass_classes_self {st : GymState} {cid : Nat}
    {f : ClassSession → ClassSession} {c : ClassSession}
    (hc : st.classes cid = some c) :
    (updateClass st cid f).classes cid = some (f c) := by
  simp [updateClass, hc]

lemma inv_updateClass {st : GymState} {cid : Nat} {f : ClassSession → ClassSession}
    (hI : Inv st)
    (hf : ∀ c, st.classes cid = some c → ClassOk c → ClassOk (f c)) :
    Inv (updateClass st cid f) := by
  intro i c hi
  have hi' : (if i = cid then (st.classes i).map f else st.classes i) = some c := hi
  by_cases hicid : i = cid
  · subst hicid
    rw [if_pos rfl] at hi'
    cases hsc : st.classes i with
    | none => rw [hsc] at hi'; cases hi'
    | some c₀ =>
      rw [hsc, Option.map_some'] at hi'
      cases hi'
      exact hf c₀ hsc (hI i c₀ hsc)
  · rw [if_neg hicid] at hi'
    exact hI i c hi'

lemma inv_createClass {st : GymState} {n ct tn : String} {s d cap : Int}
    (hI : Inv st) (hcap : 1 ≤ cap) :
    Inv (createClass st n ct tn s d cap).1 := by
  intro i c hi
  have hi' : (if i = st.nextClassId then
      some { name := n, classType := ct, trainerName := tn, scheduledAt := s,
             durationMins := d, capacity := cap, bookedCount := 0, waitlistCount := 0,
             isCancelled := false, cancellationReason := none }
    else st.classes i) = some c := hi
  split at hi'
  · cases hi'
    refine ⟨le_refl 0, ?_, hcap⟩
    show (0 : Int) ≤ cap
    linarith
  · exact hI i c hi'

lemma inv_promote {st : GymState} {cid : Nat}
    (hI : Inv st)
    (hroom : ∀ c, st.classes cid = some c → c.bookedCount < c.capacity) :
    Inv (promoteFromWaitlist st cid) := by
  unfold promoteFromWaitlist
  split
  · exact hI
  · split
    · exact hI
    · split
      · exact hI
      · refine inv_updateClass (inv_of_classes_eq rfl hI) ?_
        intro c' hc' hok
        obtain ⟨h1, h2, h3⟩ := hok
        have hc'' : st.classes cid = some c' := hc'
        have hlt := hroom c' hc''
        have g1 : (0 : Int) ≤ c'.bookedCount + 1 := by omega
        have g2 : c'.bookedCount + 1 ≤ c'.capacity := by omega
        exact ⟨g1, g2, h3⟩

lemma inv_bookClass {st : GymState} {m cid : Nat} {now : Int}
    (hI : Inv st) : Inv (bookClass st m cid now).1 := by
  unfold bookClass
  split
  · exact hI
  · rename_i c hc
    split
    · exact hI
    split
    · exact hI
    split
    · exact hI
    split
    · split
      · exact hI
      · exact hI
    · split
      · -- seat available: booked_count + 1
        rename_i hfree
        refine inv_of_classes_eq rfl (inv_updateClass hI ?_)
        intro c' hc' hok
        rw [hc] at hc'
        cases hc'
        obtain ⟨h1, h2, h3⟩ := hok
        have g1 : (0 : Int) ≤ c.bookedCount + 1 := by omega
        have g2 : c.bookedCount + 1 ≤ c.capacity := by omega
        exact ⟨g1, g2, h3⟩
      · -- class full: waitlist_count + 1 leaves booked_count alone
        refine inv_of_classes_eq rfl (inv_updateClass hI ?_)
        intro c' _ hok
        exact ⟨hok.1, hok.2.1, hok.2.2⟩

lemma inv_cancelBookingCore {st : GymState} {m : Nat} {ref : CancelRef} {now : Int}
    (hI : Inv st) : Inv (cancelBookingCore st m ref now).1 := by
  unfold cancelBookingCore
  split
  · exact hI
  · rename_i k b ht
    split
    · exact hI
    · rename_i c hc
      split
      · exact hI
      · refine inv_of_classes_eq rfl ?_
        split
        · -- Booked branch: floored decrement, then promote
          obtain ⟨h1, h2, h3⟩ := hI _ _ hc
          refine inv_promote (inv_updateClass hI ?_) ?_
          · intro c' _ hok'
            obtain ⟨g1, g2, g3⟩ := hok'
            have d1 : (0 : Int) ≤ 0 ⊔ (c'.bookedCount - 1) := by omega
            have d2 : (0 : Int) ⊔ (c'.bookedCount - 1) ≤ c'.capacity := by omega
            exact ⟨d1, d2, g3⟩
          · intro c' hc'
            rw [updateClass_classes_self hc] at hc'
            cases hc'
            show (0 : Int) ⊔ (c.bookedCount - 1) < c.capacity
            omega
        · -- Waitlisted branch: waitlist_count only
          refine inv_updateClass hI ?_
          intro c' _ hok
          exact ⟨hok.1, hok.2.1, hok.2.2⟩

lemma inv_cancelBooking {st : GymState} {m : Nat} {ref : CancelRef} {now : Int}
    (hI : Inv st) : Inv (cancelBooking st m ref now).1 := by
  cases ref with
  | noRef => exact hI
  | byBooking bid => exact inv_cancelBookingCore hI
  | byClass cid => exact inv_cancelBookingCore hI

lemma inv_cancelClass {st : GymState} {cid : Nat} {r : Option String}
    (hI : Inv st) : Inv (cancelClass st cid r) := by
  unfold cancelClass
  split
  · exact hI
  · refine inv_of_classes_eq rfl (inv_updateClass hI ?_)
    intro c' _ hok
    exact ⟨hok.1, hok.2.1, hok.2.2⟩

lemma inv_markAttendance {st : GymState} {bid : Nat} {att : Bool}
    (hI : Inv st) : Inv (markAttendance st bid att).1 := by
  unfold markAttendance
  split
  · exact hI
  · exact inv_of_classes_eq rfl hI

lemma inv_stepEv {st : GymState} {e : Event} (hI : Inv st) (hok : evOk e) :
    Inv (stepEv st e) := by
  cases e with
  | create n ct tn s d cap => exact inv_createClass hI hok
  | book m cid now => exact inv_bookClass hI
  | cancel m ref now => exact inv_cancelBooking hI
  | cancelCls cid r => exact inv_cancelClass hI
  | attend bid a => exact inv_markAttendance hI

lemma inv_run_aux (tr : List Event) :
    ∀ st, Inv st → (∀ e ∈ tr, evOk e) → Inv (tr.foldl stepEv st) := by
  induction tr with
  | nil => intro st hI _; exact hI
  | cons e tl ih =>
    intro st hI hok
    exact ih _ (inv_stepEv hI (hok e (List.mem_cons_self e tl)))
      (fun e' he' => hok e' (List.mem_cons_of_mem e he'))


/-- C1: starting from an empty store, for every `create_class` with a
capacity respecting the spec's data model (`capacity ≥ 1`) and every
sequence of `book_class`, `cancel_booking` (with its internal promotion),
`cancel_class` and `mark_attendance` calls, every class satisfies
`0 ≤ booked_count ≤ capacity`. -/
theorem c1_counter_invariant (tr : List Event) (hok : ∀ e ∈ tr, evOk e) :
    ∀ cid c, (run tr).classes cid = some c →
      0 ≤ c.bookedCount ∧ c.bookedCount ≤ c.capacity := by
  intro cid c hc
  have hInit : Inv initState := by
    intro cid' c' h
    exact Option.noConfusion h
  have h := inv_run_aux tr initState hInit hok cid c hc
  exact ⟨h.1, h.2.1⟩

/-- Witness for `c1_counter_invariant` at a concrete trace (book to
capacity, waitlist, cancel with promotion). -/
theorem c1_counter_invariant_witness :
    (∀ e ∈ ([Event.create "Yoga" "yoga" "Asha" 1000 60 1,
             Event.book 1 0 0, Event.book 2 0 0,
             Event.cancel 1 (CancelRef.byClass 0) 0] : List Event), evOk e) ∧
    (run [Event.create "Yoga" "yoga" "Asha" 1000 60 1,
          Event.book 1 0 0, Event.book 2 0 0,
          Event.cancel 1 (CancelRef.byClass 0) 0]).classes 0 =
      some { name := "Yoga", classType := "yoga", trainerName := "Asha",
             scheduledAt := 1000, durationMins := 60, capacity := 1,
             bookedCount := 1, waitlistCount := 0,
             isCancelled := false, cancellationReason := none } ∧
    (0 : Int) ≤ (1 : Int) ∧ (1 : Int) ≤ (1 : Int) :=
  ⟨by decide, by decide,
    c1_counter_invariant
      [Event.create "Yoga" "yoga" "Asha" 1000 60 1,
       Event.book 1 0 0, Event.book 2 0 0,
       Event.cancel 1 (CancelRef.byClass 0) 0] (by decide) 0
      { name := "Yoga", classType := "yoga", trainerName := "Asha",
        scheduledAt := 1000, durationMins := 60, capacity := 1,
        bookedCount := 1, waitlistCount := 0,
        isCancelled := false, cancellationReason := none } (by decide)⟩


/-! ## Cancellation-window rejection (claim C4) -/

/-- C4: when `cancel_booking` finds the member's active booking and its class
starts in under 4 hours (the configured window), it returns the
window-violation error and the state — booking statuses and both class
counters included — is returned exactly unchanged. -/
theorem c4_window_violation_no_mutation
    (st : GymState) (m : Nat) (ref : CancelRef) (now : Int)
    (k : Nat) (b : Booking) (c : ClassSession)
    (href : ref ≠ .noRef)
    (hq : cancelTarget st m ref = some (k, b))
    (hc : st.classes b.classId = some c)
    (hwin : c.scheduledAt - now < 240) :
    cancelBooking st m ref now = (st, .windowViolation) := by
  cases ref with
  | noRef => exact absurd rfl href
  | byBooking bid =>
    show cancelBookingCore st m (.byBooking bid) now = (st, .windowViolation)
    simp [cancelBookingCore, hq, hc, hwin]
  | byClass cid =>
    show cancelBookingCore st m (.byClass cid) now = (st, .windowViolation)
    simp [cancelBookingCore, hq, hc, hwin]

/-- Witness for `c4_window_violation_no_mutation`: a booked member cancelling
3 hours (180 min) before start. -/
theorem c4_window_violation_no_mutation_witness :
    ((CancelRef.byClass 0) ≠ CancelRef.noRef) ∧
    cancelTarget (run [Event.create "Yoga" "yoga" "Asha" 200 60 1, Event.book 1 0 0])
        1 (CancelRef.byClass 0) =
      some (0, { memberId := 1, classId := 0, status := .booked, waitlistPosition := none }) ∧
    cancelBooking (run [Event.create "Yoga" "yoga" "Asha" 200 60 1, Event.book 1 0 0])
        1 (CancelRef.byClass 0) 20 =
      (run [Event.create "Yoga" "yoga" "Asha" 200 60 1, Event.book 1 0 0],
        CancelResult.windowViolation) :=
  ⟨by decide, by decide,
    c4_window_violation_no_mutation
      (run [Event.create "Yoga" "yoga" "Asha" 200 60 1, Event.book 1 0 0])
      1 (CancelRef.byClass 0) 20 0
      { memberId := 1, classId := 0, status := .booked, waitlistPosition := none }
      { name := "Yoga", classType := "yoga", trainerName := "Asha",
        scheduledAt := 200, durationMins := 60, capacity := 1,
        bookedCount := 1, waitlistCount := 0,
        isCancelled := false, cancellationReason := none }
      (by decide) (by decide) (by decide) (by decide)⟩

/-! ## List toolkit for the promotion analysis (claim C5) -/

lemma posLe_refl (e : Nat × Booking) : posLe e e = true := by
  unfold posLe
  cases e.2.waitlistPosition <;> simp

lemma posLe_total (e e' : Nat × Booking) : posLe e e' = true ∨ posLe e' e = true := by
  unfold posLe
  rcases ha : e.2.waitlistPosition with _ | x <;>
    rcases hb : e'.2.waitlistPosition with _ | y <;>
    simp <;> omega

lemma posLe_trans {a b c : Nat × Booking}
    (h1 : posLe a b = true) (h2 : posLe b c = true) : posLe a c = true := by
  unfold posLe at h1 h2 ⊢
  rcases ha : a.2.waitlistPosition with _ | x <;>
    rcases hb : b.2.waitlistPosition with _ | y <;>
    rcases hc2 : c.2.waitlistPosition with _ | z <;>
    simp_all <;> omega

lemma minPosEntry_mem : ∀ {l : List (Nat × Booking)} {e},
    minPosEntry l = some e → e ∈ l := by
  intro l
  induction l with
  | nil => intro e h; cases h
  | cons a t ih =>
    intro e h
    unfold minPosEntry at h
    cases hm : minPosEntry t with
    | none =>
      rw [hm] at h
      dsimp only at h
      cases h
      exact List.mem_cons_self a t
    | some e' =>
      rw [hm] at h
      dsimp only at h
      by_cases hle : posLe a e' = true
      · rw [if_pos hle] at h
        cases h
        exact List.mem_cons_self a t
      · rw [if_neg hle] at h
        cases h
        exact List.mem_cons_of_mem a (ih hm)

lemma minPosEntry_eq_none : ∀ {l : List (Nat × Booking)},
    minPosEntry l = none → l = [] := by
  intro l h
  cases l with
  | nil => rfl
  | cons a t =>
    unfold minPosEntry at h
    cases hm : minPosEntry t with
    | none =>
      rw [hm] at h
      dsimp only at h
      cases h
    | some e' =>
      rw [hm] at h
      dsimp only at h
      by_cases hle : posLe a e' = true
      · rw [if_pos hle] at h; cases h
      · rw [if_neg hle] at h; cases h

lemma minPosEntry_min : ∀ {l : List (Nat × Booking)} {e},
    minPosEntry l = some e → ∀ x ∈ l, posLe e x = true := by
  intro l
  induction l with
  | nil => intro e h; cases h
  | cons a t ih =>
    intro e h x hx
    unfold minPosEntry at h
    cases hm : minPosEntry t with
    | none =>
      rw [hm] at h
      dsimp only at h
      cases h
      have ht : t = [] := minPosEntry_eq_none hm
      subst ht
      rcases List.mem_cons.mp hx with rfl | hx'
      · exact posLe_refl x
      · cases hx'
    | some e' =>
      rw [hm] at h
      dsimp only at h
      by_cases hle : posLe a e' = true
      · rw [if_pos hle] at h
        cases h
        rcases List.mem_cons.mp hx with rfl | hx'
        · exact posLe_refl x
        · exact posLe_trans hle (ih hm x hx')
      · rw [if_neg hle] at h
        cases h
        rcases List.mem_cons.mp hx with rfl | hx'
        · rcases posLe_total x e with hpa | hpe
          · exact absurd hpa hle
          · exact hpe
        · exact ih hm x hx'

lemma updateBooking_map_fst (l : List (Nat × Booking)) (k : Nat)
    (f : Booking → Booking) :
    (updateBooking l k f).map Prod.fst = l.map Prod.fst := by
  induction l with
  | nil => rfl
  | cons a t ih =>
    unfold updateBooking
    by_cases hk : a.1 = k
    · simp [hk]
    · simp [hk, ih]

lemma mem_updateBooking_of_ne {l : List (Nat × Booking)} {k : Nat}
    {f : Booking → Booking} {e : Nat × Booking}
    (he : e ∈ l) (hne : e.1 ≠ k) : e ∈ updateBooking l k f := by
  induction l with
  | nil => cases he
  | cons a t ih =>
    unfold updateBooking
    rcases List.mem_cons.mp he with rfl | he'
    · rw [if_neg hne]
      exact List.mem_cons_self _ _
    · by_cases hk : a.1 = k
      · rw [if_pos hk]
        exact List.mem_cons_of_mem _ he'
      · rw [if_neg hk]
        exact List.mem_cons_of_mem _ (ih he')

lemma find?_key_updateBooking_self {l : List (Nat × Booking)} {k : Nat}
    {b : Booking} (f : Booking → Booking)
    (h : l.find? (fun e => e.1 == k) = some (k, b)) :
    (updateBooking l k f).find? (fun e => e.1 == k) = some (k, f b) := by
  induction l with
  | nil => cases h
  | cons a t ih =>
    unfold updateBooking
    rw [List.find?_cons] at h
    by_cases hk : a.1 = k
    · rw [if_pos hk]
      rw [List.find?_cons]
      simp only [hk, beq_self_eq_true] at h ⊢
      cases h
      rfl
    · rw [if_neg hk]
      rw [List.find?_cons]
      have hb : (a.1 == k) = false := by simp [hk]
      rw [hb] at h ⊢
      exact ih h

lemma find?_key_updateBooking_other {l : List (Nat × Booking)} {k k' : Nat}
    (f : Booking → Booking) (hne : k' ≠ k) :
    (updateBooking l k f).find? (fun e => e.1 == k') =
      l.find? (fun e => e.1 == k') := by
  induction l with
  | nil => rfl
  | cons a t ih =>
    unfold updateBooking
    by_cases hk : a.1 = k
    · rw [if_pos hk]
      rw [List.find?_cons, List.find?_cons]
      have hb : (a.1 == k') = false := by
        simp only [beq_eq_false_iff_ne, ne_eq]
        omega
      simp only [hb]
    · rw [if_neg hk]
      rw [List.find?_cons, List.find?_cons]
      cases hb : (a.1 == k') <;> simp [ih]

lemma find?_key_of_mem_nodup {l : List (Nat × Booking)} {e : Nat × Booking}
    (hnd : (l.map Prod.fst).Nodup) (he : e ∈ l) :
    l.find? (fun x => x.1 == e.1) = some e := by
  induction l with
  | nil => cases he
  | cons a t ih =>
    rw [List.find?_cons]
    rcases List.mem_cons.mp he with rfl | he'
    · simp
    · have hnd' : (t.map Prod.fst).Nodup := (List.nodup_cons.mp hnd).2
      have hanot : a.1 ∉ t.map Prod.fst := (List.nodup_cons.mp hnd).1
      have hne : (a.1 == e.1) = false := by
        simp only [beq_eq_false_iff_ne, ne_eq]
        intro hcontra
        exact hanot (hcontra ▸ List.mem_map_of_mem Prod.fst he')
      rw [hne]
      exact ih hnd' he'

lemma key_unique_of_nodup {l : List (Nat × Booking)} {k : Nat} {x y : Booking}
    (hnd : (l.map Prod.fst).Nodup) (hx : (k, x) ∈ l) (hy : (k, y) ∈ l) :
    x = y := by
  have h1 := find?_key_of_mem_nodup hnd hx
  have h2 := find?_key_of_mem_nodup hnd hy
  simp only at h1 h2
  rw [h1] at h2
  cases h2
  rfl

/-! ## Shape of the cancel-with-promotion path (claim C5) -/

lemma promote_spec {st : GymState} {cid : Nat} {c : ClassSession} {e₀ : Nat × Booking}
    (hc : st.classes cid = some c) (hwc : c.waitlistCount ≠ 0)
    (hm : minPosEntry (waitlistRows st cid) = some e₀) :
    promoteFromWaitlist st cid =
      updateClass
        { st with bookings := updateBooking st.bookings e₀.1 (fun b => { b with status := .booked, waitlistPosition := none }) }
        cid
        (fun c => { c with bookedCount := c.bookedCount + 1, waitlistCount := c.waitlistCount - 1 }) := by
  unfold promoteFromWaitlist
  rw [hc]
  dsimp only
  rw [if_neg (by simp [hwc]), hm]

lemma promote_no_rows {st : GymState} {cid : Nat} {c : ClassSession}
    (hc : st.classes cid = some c) (hrows : waitlistRows st cid = []) :
    promoteFromWaitlist st cid = st := by
  unfold promoteFromWaitlist
  rw [hc]
  dsimp only
  by_cases hwc : (c.waitlistCount == 0) = true
  · rw [if_pos hwc]
  · rw [if_neg hwc, hrows]
    simp [minPosEntry]

lemma cancelBookingCore_booked {st : GymState} {m : Nat} {ref : CancelRef} {now : Int}
    {k : Nat} {b : Booking} {c : ClassSession}
    (hq : cancelTarget st m ref = some (k, b)) (hb : b.status = .booked)
    (hc : st.classes b.classId = some c) (hwin : ¬ (c.scheduledAt - now < 240)) :
    cancelBookingCore st m ref now =
      (let st1 := promoteFromWaitlist
          (updateClass st b.classId
            (fun c => { c with bookedCount := max 0 (c.bookedCount - 1) }))
          b.classId
       ({ st1 with bookings := updateBooking st1.bookings k (fun b => { b with status := .cancelled }) }, .success)) := by
  unfold cancelBookingCore
  rw [hq]
  dsimp only
  rw [hc]
  dsimp only
  rw [if_neg hwin]
  rw [show (b.status == BStatus.booked) = true by simp [hb]]
  rfl

/-- What claim C5 asserts about the state after
`cancel_booking` of a Booked booking `(k, b)` of class `c` outside the
window: promotion flips exactly the earliest-position waitlisted row,
counters end with `booked_count` net unchanged and `waitlist_count - 1`;
with no waitlisted row, `booked_count` drops by one and only the cancelled
booking changes. -/
def C5Post (st : GymState) (m : Nat) (ref : CancelRef) (now : Int)
    (k : Nat) (b : Booking) (c : ClassSession) : Prop :=
  (cancelBooking st m ref now).2 = .success ∧
  (∀ e₀, minPosEntry (waitlistRows st b.classId) = some e₀ → 1 ≤ c.waitlistCount →
    e₀ ∈ st.bookings ∧ e₀.2.classId = b.classId ∧ e₀.2.status = .waitlist ∧
    (∀ x ∈ waitlistRows st b.classId, posLe e₀ x = true) ∧
    (cancelBooking st m ref now).1.classes b.classId =
      some { c with waitlistCount := c.waitlistCount - 1 } ∧
    lookupB (cancelBooking st m ref now).1 e₀.1 =
      some { e₀.2 with status := .booked, waitlistPosition := none } ∧
    lookupB (cancelBooking st m ref now).1 k = some { b with status := .cancelled } ∧
    (∀ e ∈ st.bookings, e.1 ≠ k → e.1 ≠ e₀.1 →
      e ∈ (cancelBooking st m ref now).1.bookings)) ∧
  (waitlistRows st b.classId = [] →
    (cancelBooking st m ref now).1.classes b.classId =
      some { c with bookedCount := c.bookedCount - 1 } ∧
    lookupB (cancelBooking st m ref now).1 k = some { b with status := .cancelled } ∧
    (∀ e ∈ st.bookings, e.1 ≠ k → e ∈ (cancelBooking st m ref now).1.bookings))

/-- `promoteFromWaitlist` on the promoted class row. -/
lemma promote_classes_self {st : GymState} {cid : Nat} {c : ClassSession} {e₀ : Nat × Booking}
    (hc : st.classes cid = some c) (hwc : c.waitlistCount ≠ 0)
    (hm : minPosEntry (waitlistRows st cid) = some e₀) :
    (promoteFromWaitlist st cid).classes cid =
      some { c with bookedCount := c.bookedCount + 1, waitlistCount := c.waitlistCount - 1 } := by
  rw [promote_spec hc hwc hm]
  exact updateClass_classes_self hc

/-- `promoteFromWaitlist` on the booking rows. -/
lemma promote_bookings_eq {st : GymState} {cid : Nat} {c : ClassSession} {e₀ : Nat × Booking}
    (hc : st.classes cid = some c) (hwc : c.waitlistCount ≠ 0)
    (hm : minPosEntry (waitlistRows st cid) = some e₀) :
    (promoteFromWaitlist st cid).bookings =
      updateBooking st.bookings e₀.1 (fun b => { b with status := .booked, waitlistPosition := none }) := by
  rw [promote_spec hc hwc hm]
  rfl

/-- C5: cancelling a Booked booking outside the window promotes exactly the
waitlisted booking with the smallest position (first in row order on ties),
leaves `booked_count` net unchanged and decrements `waitlist_count`; with an
empty waitlist it just decrements `booked_count` and touches no other
booking.  The hypotheses `1 ≤ bookedCount`, key-nodup and (in the promotion
branch) `1 ≤ waitlistCount` hold on every state the service itself built. -/
theorem c5_cancel_booked_promotes_earliest
    (st : GymState) (m : Nat) (ref : CancelRef) (now : Int)
    (k : Nat) (b : Booking) (c : ClassSession)
    (href : ref ≠ .noRef)
    (hq : cancelTarget st m ref = some (k, b))
    (hb : b.status = .booked)
    (hc : st.classes b.classId = some c)
    (hwin : ¬ (c.scheduledAt - now < 240))
    (hkeys : (st.bookings.map Prod.fst).Nodup)
    (hbc : 1 ≤ c.bookedCount) :
    C5Post st m ref now k b c := by
  have hred : cancelBooking st m ref now = cancelBookingCore st m ref now := by
    cases ref with
    | noRef => exact absurd rfl href
    | byBooking bid => rfl
    | byClass cid => rfl
  have hkb_mem : (k, b) ∈ st.bookings := List.mem_of_find?_eq_some hq
  have hfk : st.bookings.find? (fun x => x.1 == k) = some (k, b) :=
    find?_key_of_mem_nodup hkeys hkb_mem
  have hspec := cancelBookingCore_booked hq hb hc hwin
  refine ⟨?_, ?_, ?_⟩
  · rw [hred, hspec]
  · -- promotion branch
    intro e₀ hm hwc
    have he₀rows : e₀ ∈ waitlistRows st b.classId := minPosEntry_mem hm
    have he₀mem : e₀ ∈ st.bookings := List.mem_of_mem_filter he₀rows
    have he₀pred := List.of_mem_filter he₀rows
    have he₀cid : e₀.2.classId = b.classId := by
      simp only [Bool.and_eq_true, beq_iff_eq] at he₀pred
      exact he₀pred.1
    have he₀wl : e₀.2.status = .waitlist := by
      simp only [Bool.and_eq_true, beq_iff_eq] at he₀pred
      exact he₀pred.2
    have hne : e₀.1 ≠ k := by
      intro hcontra
      have he₀pair : (k, e₀.2) ∈ st.bookings := by
        rw [← hcontra]
        exact he₀mem
      have : e₀.2 = b := key_unique_of_nodup hkeys he₀pair hkb_mem
      rw [this, hb] at he₀wl
      cases he₀wl
    -- facts about the decremented intermediate state
    have hcD : (updateClass st b.classId
        (fun c => { c with bookedCount := max 0 (c.bookedCount - 1) })).classes b.classId =
        some { c with bookedCount := max 0 (c.bookedCount - 1) } :=
      updateClass_classes_self hc
    have hwcD : ({ c with bookedCount := max 0 (c.bookedCount - 1) } : ClassSession).waitlistCount ≠ 0 := by
      show c.waitlistCount ≠ 0
      omega
    have hmD : minPosEntry (waitlistRows
        (updateClass st b.classId
          (fun c => { c with bookedCount := max 0 (c.bookedCount - 1) })) b.classId) = some e₀ := hm
    have he₀fkD : (updateClass st b.classId
        (fun c => { c with bookedCount := max 0 (c.bookedCount - 1) })).bookings.find?
          (fun x => x.1 == e₀.1) = some (e₀.1, e₀.2) :=
      find?_key_of_mem_nodup hkeys he₀mem
    have hfkD : (updateClass st b.classId
        (fun c => { c with bookedCount := max 0 (c.bookedCount - 1) })).bookings.find?
          (fun x => x.1 == k) = some (k, b) := hfk
    refine ⟨he₀mem, he₀cid, he₀wl, minPosEntry_min hm, ?_, ?_, ?_, ?_⟩
    · rw [hred, hspec]
      show (promoteFromWaitlist _ b.classId).classes b.classId = _
      rw [promote_classes_self hcD hwcD hmD]
      have harith : max 0 (c.bookedCount - 1) + 1 = c.bookedCount := by omega
      show some { c with bookedCount := max 0 (c.bookedCount - 1) + 1,
                         waitlistCount := c.waitlistCount - 1 } = _
      rw [harith]
    · rw [hred, hspec]
      simp only [lookupB]
      rw [find?_key_updateBooking_other _ hne]
      rw [promote_bookings_eq hcD hwcD hmD]
      rw [find?_key_updateBooking_self _ he₀fkD]
      rfl
    · rw [hred, hspec]
      simp only [lookupB]
      have hfkP : (promoteFromWaitlist
          (updateClass st b.classId
            (fun c => { c with bookedCount := max 0 (c.bookedCount - 1) }))
          b.classId).bookings.find? (fun x => x.1 == k) = some (k, b) := by
        rw [promote_bookings_eq hcD hwcD hmD]
        rw [find?_key_updateBooking_other _ (Ne.symm hne)]
        exact hfkD
      rw [find?_key_updateBooking_self _ hfkP]
      rfl
    · intro e he hek he₀1
      rw [hred, hspec]
      show e ∈ updateBooking (promoteFromWaitlist _ b.classId).bookings k _
      refine mem_updateBooking_of_ne ?_ hek
      rw [promote_bookings_eq hcD hwcD hmD]
      exact mem_updateBooking_of_ne he he₀1
  · -- empty-waitlist branch
    intro hrows
    have hcD : (updateClass st b.classId
        (fun c => { c with bookedCount := max 0 (c.bookedCount - 1) })).classes b.classId =
        some { c with bookedCount := max 0 (c.bookedCount - 1) } :=
      updateClass_classes_self hc
    have hrowsD : waitlistRows
        (updateClass st b.classId
          (fun c => { c with bookedCount := max 0 (c.bookedCount - 1) })) b.classId = [] := hrows
    have hpromo := promote_no_rows hcD hrowsD
    have hfkD : (updateClass st b.classId
        (fun c => { c with bookedCount := max 0 (c.bookedCount - 1) })).bookings.find?
          (fun x => x.1 == k) = some (k, b) := hfk
    refine ⟨?_, ?_, ?_⟩
    · rw [hred, hspec]
      show (promoteFromWaitlist _ b.classId).classes b.classId = _
      rw [hpromo, hcD]
      have harith : max 0 (c.bookedCount - 1) = c.bookedCount - 1 := by omega
      rw [harith]
    · rw [hred, hspec]
      simp only [lookupB]
      have hfkP : (promoteFromWaitlist
          (updateClass st b.classId
            (fun c => { c with bookedCount := max 0 (c.bookedCount - 1) }))
          b.classId).bookings.find? (fun x => x.1 == k) = some (k, b) := by
        rw [hpromo]
        exact hfkD
      rw [find?_key_updateBooking_self _ hfkP]
      rfl
    · intro e he hek
      rw [hred, hspec]
      show e ∈ updateBooking (promoteFromWaitlist _ b.classId).bookings k _
      refine mem_updateBooking_of_ne ?_ hek
      rw [hpromo]
      exact he

/-- Witness for `c5_cancel_booked_promotes_earliest`: capacity-1 class with
two waitlisted members; the booked member cancels 1000 minutes before
start. -/
theorem c5_cancel_booked_promotes_earliest_witness :
    (CancelRef.byClass 0 ≠ CancelRef.noRef) ∧
    cancelTarget (run [Event.create "Yoga" "yoga" "Asha" 1000 60 1,
                       Event.book 1 0 0, Event.book 2 0 0, Event.book 3 0 0])
        1 (CancelRef.byClass 0) =
      some (0, { memberId := 1, classId := 0, status := .booked, waitlistPosition := none }) ∧
    (run [Event.create "Yoga" "yoga" "Asha" 1000 60 1,
          Event.book 1 0 0, Event.book 2 0 0, Event.book 3 0 0]).classes 0 =
      some { name := "Yoga", classType := "yoga", trainerName := "Asha",
             scheduledAt := 1000, durationMins := 60, capacity := 1,
             bookedCount := 1, waitlistCount := 2,
             isCancelled := false, cancellationReason := none } ∧
    C5Post (run [Event.create "Yoga" "yoga" "Asha" 1000 60 1,
                 Event.book 1 0 0, Event.book 2 0 0, Event.book 3 0 0])
      1 (CancelRef.byClass 0) 0 0
      { memberId := 1, classId := 0, status := .booked, waitlistPosition := none }
      { name := "Yoga", classType := "yoga", trainerName := "Asha",
        scheduledAt := 1000, durationMins := 60, capacity := 1,
        bookedCount := 1, waitlistCount := 2,
        isCancelled := false, cancellationReason := none } :=
  ⟨by decide, by decide, by decide,
    c5_cancel_booked_promotes_earliest
      (run [Event.create "Yoga" "yoga" "Asha" 1000 60 1,
            Event.book 1 0 0, Event.book 2 0 0, Event.book 3 0 0])
      1 (CancelRef.byClass 0) 0 0
      { memberId := 1, classId := 0, status := .booked, waitlistPosition := none }
      { name := "Yoga", classType := "yoga", trainerName := "Asha",
        scheduledAt := 1000, durationMins := 60, capacity := 1,
        bookedCount := 1, waitlistCount := 2,
        isCancelled := false, cancellationReason := none }
      (by decide) (by decide) (by decide) (by decide) (by decide) (by decide) (by decide)⟩

/-! ## mark_attendance (claim C10) -/

/-- C10: `mark_attendance` looks a booking up by id alone and overwrites its
status to Attended/NoShow whatever its current status is; only a missing id
leaves the state unchanged and returns `none`. -/
theorem c10_mark_attendance_unconditional
    (st : GymState) (bid : Nat) (att : Bool) :
    (∀ k b, st.bookings.find? (fun e => e.1 == bid) = some (k, b) →
      markAttendance st bid att =
        ({ st with bookings := updateBooking st.bookings k (fun _ => if att then { b with status := .attended } else { b with status := .noShow }) },
          some (if att then { b with status := .attended } else { b with status := .noShow }))) ∧
    (st.bookings.find? (fun e => e.1 == bid) = none →
      markAttendance st bid att = (st, none)) := by
  constructor
  · intro k b h
    unfold markAttendance
    rw [h]
  · intro h
    unfold markAttendance
    rw [h]

/-- Witness for `c10_mark_attendance_unconditional`: a booking already
Cancelled (by `cancel_class`) is flipped straight to Attended, and a missing
id returns `none`. -/
theorem c10_mark_attendance_unconditional_witness :
    (run [Event.create "Yoga" "yoga" "Asha" 1000 60 1, Event.book 1 0 0, Event.cancelCls 0 none]).bookings.find? (fun e => e.1 == 0) = some (0, { memberId := 1, classId := 0, status := .cancelled, waitlistPosition := none }) ∧
    markAttendance (run [Event.create "Yoga" "yoga" "Asha" 1000 60 1, Event.book 1 0 0, Event.cancelCls 0 none]) 0 true = ({ run [Event.create "Yoga" "yoga" "Asha" 1000 60 1, Event.book 1 0 0, Event.cancelCls 0 none] with bookings := updateBooking (run [Event.create "Yoga" "yoga" "Asha" 1000 60 1, Event.book 1 0 0, Event.cancelCls 0 none]).bookings 0 (fun _ => if true then { memberId := 1, classId := 0, status := BStatus.attended, waitlistPosition := none } else { memberId := 1, classId := 0, status := BStatus.noShow, waitlistPosition := none }) }, some (if true then { memberId := 1, classId := 0, status := BStatus.attended, waitlistPosition := none } else { memberId := 1, classId := 0, status := BStatus.noShow, waitlistPosition := none })) :=
  ⟨by decide,
    (c10_mark_attendance_unconditional
      (run [Event.create "Yoga" "yoga" "Asha" 1000 60 1, Event.book 1 0 0, Event.cancelCls 0 none]) 0 true).1 0
      { memberId := 1, classId := 0, status := .cancelled, waitlistPosition := none }
      (by decide)⟩

/-! ## Overlap conflict detection (claim C3) -/

/-- The spec's overlap condition for a booking row `e` of the member against
the requested `[cs, ce)` slot: `e` is an active booking of the member on an
existing, non-cancelled class whose `[start, start+duration)` interval truly
overlaps. -/
def OverlapsActive (st : GymState) (m : Nat) (cs ce : Int) (e : Nat × Booking) : Prop :=
  e.2.memberId = m ∧ isActive e.2 = true ∧
  ∃ oc, st.classes e.2.classId = some oc ∧ oc.isCancelled = false ∧
    oc.scheduledAt < ce ∧ cs < oc.scheduledAt + oc.durationMins

lemma overlapPrimary_eq_true_iff {st : GymState} {m : Nat} {cs ce : Int}
    {e : Nat × Booking} :
    overlapPrimary st m cs ce e = true ↔ OverlapsActive st m cs ce e := by
  unfold overlapPrimary OverlapsActive
  cases hoc : st.classes e.2.classId with
  | none => simp
  | some oc =>
    simp only [Bool.and_eq_true, beq_iff_eq, Bool.not_eq_true',
      decide_eq_true_eq, Option.some.injEq]
    constructor
    · intro h
      obtain ⟨⟨hmem, hact⟩, hrest⟩ := h
      obtain ⟨⟨hnc, hlt1⟩, hlt2⟩ := hrest
      exact ⟨hmem, hact, oc, rfl, hnc, hlt1, hlt2⟩
    · intro h
      obtain ⟨hmem, hact, oc', hoc', hnc, hlt1, hlt2⟩ := h
      subst hoc'
      exact ⟨⟨hmem, hact⟩, ⟨hnc, hlt1⟩, hlt2⟩

/-- C3 (amended): whenever the member holds an active booking on a
non-cancelled class whose interval overlaps a bookable, not-yet-started,
not-already-held class, `book_class` returns a Conflict carrying the name
and time of such an overlapping class, and the state is returned unchanged —
the precise scan covers every active booking (no time-window pre-filter). -/
theorem c3_overlap_conflict_detected
    (st : GymState) (m : Nat) (cid : Nat) (now : Int) (c : ClassSession)
    (hc : st.classes cid = some c)
    (hnc : c.isCancelled = false)
    (hns : ¬ (c.scheduledAt < now))
    (hsame : st.bookings.find? (fun e =>
        e.2.memberId == m && e.2.classId == cid && isActive e.2) = none)
    (hconf : ∃ e ∈ st.bookings,
        OverlapsActive st m c.scheduledAt (c.scheduledAt + c.durationMins) e) :
    ∃ e ∈ st.bookings,
      OverlapsActive st m c.scheduledAt (c.scheduledAt + c.durationMins) e ∧
      ∃ oc, st.classes e.2.classId = some oc ∧
        bookClass st m cid now = (st, .conflict oc.name oc.scheduledAt) := by
  have hne : st.bookings.find?
      (overlapPrimary st m c.scheduledAt (c.scheduledAt + c.durationMins)) ≠ none := by
    intro hnone
    rw [List.find?_eq_none] at hnone
    obtain ⟨e, hmem, hov⟩ := hconf
    exact hnone e hmem (overlapPrimary_eq_true_iff.mpr hov)
  cases hfind : st.bookings.find?
      (overlapPrimary st m c.scheduledAt (c.scheduledAt + c.durationMins)) with
  | none => exact absurd hfind hne
  | some e' =>
    have he'mem : e' ∈ st.bookings := List.mem_of_find?_eq_some hfind
    have he'ov : OverlapsActive st m c.scheduledAt (c.scheduledAt + c.durationMins) e' :=
      overlapPrimary_eq_true_iff.mp (List.find?_some hfind)
    obtain ⟨hmem, hact, oc, hoc, hocnc, hlt1, hlt2⟩ := he'ov
    refine ⟨e', he'mem, ⟨hmem, hact, oc, hoc, hocnc, hlt1, hlt2⟩, oc, hoc, ?_⟩
    have hfc : findConflict st m c.scheduledAt (c.scheduledAt + c.durationMins) = some e' := by
      unfold findConflict
      rw [hfind]
    unfold bookClass
    rw [hc]
    dsimp only
    rw [if_neg (by simp [hnc]), if_neg hns]
    rw [hsame]
    dsimp only [Option.isSome_none, Bool.false_eq_true, if_false]
    rw [hfc]
    dsimp only
    rw [hoc]
    rfl

/-- Witness for `c3_overlap_conflict_detected`: the member's existing class
runs 08:00–13:00 (300 min) and the requested class 11:00–12:00 — the
existing class starts more than 2 h before the requested slot, so only the
precise scan (not a ±2 h window) can see it; `book_class` still returns the
Conflict carrying "Marathon" and its start time. -/
theorem c3_overlap_conflict_detected_witness :
    (run [Event.create "Marathon" "endurance" "Asha" 480 300 5,
          Event.create "Spin" "spin" "Ben" 660 60 5,
          Event.book 1 0 0]).classes 1 =
      some { name := "Spin", classType := "spin", trainerName := "Ben",
             scheduledAt := 660, durationMins := 60, capacity := 5,
             bookedCount := 0, waitlistCount := 0,
             isCancelled := false, cancellationReason := none } ∧
    (∃ e ∈ (run [Event.create "Marathon" "endurance" "Asha" 480 300 5,
                 Event.create "Spin" "spin" "Ben" 660 60 5,
                 Event.book 1 0 0]).bookings,
      OverlapsActive (run [Event.create "Marathon" "endurance" "Asha" 480 300 5,
                           Event.create "Spin" "spin" "Ben" 660 60 5,
                           Event.book 1 0 0]) 1 660 (660 + 60) e ∧
      ∃ oc, (run [Event.create "Marathon" "endurance" "Asha" 480 300 5,
                  Event.create "Spin" "spin" "Ben" 660 60 5,
                  Event.book 1 0 0]).classes e.2.classId = some oc ∧
        bookClass (run [Event.create "Marathon" "endurance" "Asha" 480 300 5,
                        Event.create "Spin" "spin" "Ben" 660 60 5,
                        Event.book 1 0 0]) 1 1 0 =
          (run [Event.create "Marathon" "endurance" "Asha" 480 300 5,
                Event.create "Spin" "spin" "Ben" 660 60 5,
                Event.book 1 0 0], .conflict oc.name oc.scheduledAt)) :=
  ⟨by decide,
    c3_overlap_conflict_detected
      (run [Event.create "Marathon" "endurance" "Asha" 480 300 5,
            Event.create "Spin" "spin" "Ben" 660 60 5,
            Event.book 1 0 0]) 1 1 0
      { name := "Spin", classType := "spin", trainerName := "Ben",
        scheduledAt := 660, durationMins := 60, capacity := 5,
        bookedCount := 0, waitlistCount := 0,
        isCancelled := false, cancellationReason := none }
      (by decide) (by decide) (by decide) (by decide)
      ⟨(0, { memberId := 1, classId := 0, status := .booked, waitlistPosition := none }),
        by decide, overlapPrimary_eq_true_iff.mp (by decide)⟩⟩

/-- C3 counterexample to the claim as frozen: `cancel_class` leaves a
Waitlisted booking active (see C6), and the conflict queries filter on
`Class.is_cancelled == False`; so member 2 actively holds the cancelled
class X (10:00–11:00 as minutes 1000–1060) and can still book the truly
overlapping class Y (1020–1080) — `book_class` succeeds instead of
returning a Conflict. -/
theorem c3_cancelled_class_overlap_not_detected :
    lookupB (run [Event.create "X" "yoga" "Asha" 1000 60 1,
                  Event.book 1 0 0, Event.book 2 0 0,
                  Event.cancelCls 0 (some "gone"),
                  Event.create "Y" "hiit" "Ben" 1020 60 5]) 1 =
      some { memberId := 2, classId := 0, status := .waitlist, waitlistPosition := some 1 } ∧
    (run [Event.create "X" "yoga" "Asha" 1000 60 1,
          Event.book 1 0 0, Event.book 2 0 0,
          Event.cancelCls 0 (some "gone"),
          Event.create "Y" "hiit" "Ben" 1020 60 5]).classes 0 =
      some { name := "X", classType := "yoga", trainerName := "Asha",
             scheduledAt := 1000, durationMins := 60, capacity := 1,
             bookedCount := 1, waitlistCount := 1,
             isCancelled := true, cancellationReason := some "gone" } ∧
    ((1020 : Int) < 1000 + 60 ∧ (1000 : Int) < 1020 + 60) ∧
    (bookClass (run [Event.create "X" "yoga" "Asha" 1000 60 1,
                     Event.book 1 0 0, Event.book 2 0 0,
                     Event.cancelCls 0 (some "gone"),
                     Event.create "Y" "hiit" "Ben" 1020 60 5]) 2 1 0).2 =
      .okBooked := by
  decide

/-! ## Waitlist position uniqueness (claim C2) -/

/-- C2 refutation: book members 2 and 3 onto the waitlist of a full class
(positions 1 and 2), cancel member 2's waitlisted booking (positions are not
renumbered but `waitlist_count` drops to 1), then book member 4 — the code
assigns `waitlist_position = waitlist_count + 1 = 2`, colliding with member
3's surviving position 2.  Two active Waitlisted rows of one class share a
position, and the later-created row's position is not greater. -/
theorem c2_duplicate_waitlist_positions :
    lookupB (run [Event.create "Yoga" "yoga" "Asha" 1000 60 1,
                  Event.book 1 0 0, Event.book 2 0 0, Event.book 3 0 0,
                  Event.cancel 2 (CancelRef.byClass 0) 0,
                  Event.book 4 0 0]) 2 =
      some { memberId := 3, classId := 0, status := .waitlist, waitlistPosition := some 2 } ∧
    lookupB (run [Event.create "Yoga" "yoga" "Asha" 1000 60 1,
                  Event.book 1 0 0, Event.book 2 0 0, Event.book 3 0 0,
                  Event.cancel 2 (CancelRef.byClass 0) 0,
                  Event.book 4 0 0]) 3 =
      some { memberId := 4, classId := 0, status := .waitlist, waitlistPosition := some 2 } := by
  decide

/-! ## cancel_class and waitlisted bookings (claim C6) -/

/-- C6 refutation: `cancel_class` flags the class and bulk-cancels only the
rows with `status == BOOKED`; a Waitlisted row survives as an active
booking of the cancelled class. -/
theorem c6_cancel_class_leaves_waitlisted_active :
    (run [Event.create "Yoga" "yoga" "Asha" 1000 60 1,
          Event.book 1 0 0, Event.book 2 0 0,
          Event.cancelCls 0 (some "maintenance")]).classes 0 =
      some { name := "Yoga", classType := "yoga", trainerName := "Asha",
             scheduledAt := 1000, durationMins := 60, capacity := 1,
             bookedCount := 1, waitlistCount := 1,
             isCancelled := true, cancellationReason := some "maintenance" } ∧
    lookupB (run [Event.create "Yoga" "yoga" "Asha" 1000 60 1,
                  Event.book 1 0 0, Event.book 2 0 0,
                  Event.cancelCls 0 (some "maintenance")]) 0 =
      some { memberId := 1, classId := 0, status := .cancelled, waitlistPosition := none } ∧
    lookupB (run [Event.create "Yoga" "yoga" "Asha" 1000 60 1,
                  Event.book 1 0 0, Event.book 2 0 0,
                  Event.cancelCls 0 (some "maintenance")]) 1 =
      some { memberId := 2, classId := 0, status := .waitlist, waitlistPosition := some 1 } := by
  decide

end Gym

namespace Chat

/-!
## Conversation-state store

Embeds `ConversationState` (`app/models/message.py`) and
`MemberService.get/set/clear_conversation_state`
(`app/services/member_service.py`, lines 331–372).  `flow_data` payloads are
rendered as string key/value lists.
-/

/-- A `conversation_states` row (fields the modelled operations touch). -/
structure ConvRow where
  phone : String
  currentFlow : Option String
  currentStep : Option String
  flowData : Option (List (String × String))
deriving DecidableEq, Repr

/-- Python's `str.strip()` on a character list (ASCII whitespace at both
ends). -/
def pyStrip (cs : List Char) : List Char :=
  ((cs.dropWhile Char.isWhitespace).reverse.dropWhile Char.isWhitespace).reverse

/-- `str.strip()` on a string. -/
def pyStripStr (q : String) : String := String.mk (pyStrip q.data)

/-- `phone.replace("+", "").replace(" ", "").strip()`.  For the single-char
patterns used here, `str.replace` deletes every occurrence, i.e. filters the
character out. -/
def normalizePhone (p : String) : String :=
  String.mk (pyStrip ((p.data.filter (fun ch => ch ≠ '+')).filter (fun ch => ch ≠ ' ')))

/-- `MemberService.get_conversation_state`. -/
def getConvState (store : List ConvRow) (p : String) : Option ConvRow :=
  store.find? (fun r => r.phone == normalizePhone p)

/-- In-place mutation of the first row with the given phone (the ORM row the
source fetched). -/
def updateConvFirst : List ConvRow → String → (ConvRow → ConvRow) → List ConvRow
  | [], _, _ => []
  | r :: rest, q, f =>
      if r.phone = q then f r :: rest else r :: updateConvFirst rest q f

/-- `MemberService.set_conversation_state`: update the existing row for the
identity, else insert a fresh one; `data or {}` stores `[]` for `none`. -/
def setConvState (store : List ConvRow) (p flow step : String)
    (data : Option (List (String × String))) : List ConvRow :=
  let q := normalizePhone p
  match store.find? (fun r => r.phone == q) with
  | some _ =>
      updateConvFirst store q (fun r =>
        { r with currentFlow := some flow, currentStep := some step,
                 flowData := some (data.getD []) })
  | none =>
      store ++ [{ phone := q, currentFlow := some flow, currentStep := some step,
                  flowData := some (data.getD []) }]

/-- `MemberService.clear_conversation_state` via `ConversationState.clear_flow`:
null out flow/step/data of the row, if one exists; the row itself stays. -/
def clearConvState (store : List ConvRow) (p : String) : List ConvRow :=
  updateConvFirst store (normalizePhone p)
    (fun r => { r with currentFlow := none, currentStep := none, flowData := none })

lemma updateConvFirst_map_phone (store : List ConvRow) (q : String)
    (f : ConvRow → ConvRow) (hf : ∀ r, (f r).phone = r.phone) :
    (updateConvFirst store q f).map ConvRow.phone = store.map ConvRow.phone := by
  induction store with
  | nil => rfl
  | cons a t ih =>
    unfold updateConvFirst
    by_cases hq : a.phone = q
    · simp [hq, hf]
    · simp [hq, ih]

lemma find?_updateConvFirst_self {store : List ConvRow} {q : String} {r : ConvRow}
    (f : ConvRow → ConvRow) (hf : ∀ x, (f x).phone = x.phone)
    (h : store.find? (fun x => x.phone == q) = some r) :
    (updateConvFirst store q f).find? (fun x => x.phone == q) = some (f r) := by
  induction store with
  | nil => cases h
  | cons a t ih =>
    unfold updateConvFirst
    rw [List.find?_cons] at h
    by_cases hq : a.phone = q
    · rw [if_pos hq]
      rw [List.find?_cons]
      simp only [hq, beq_self_eq_true] at h
      cases h
      have hfr : ((f r).phone == q) = true := by
        simp [hf, hq]
      rw [hfr]
    · rw [if_neg hq]
      rw [List.find?_cons]
      have hb : (a.phone == q) = false := by simp [hq]
      rw [hb] at h ⊢
      exact ih h

lemma find?_append_of_none {l l' : List ConvRow} {p : ConvRow → Bool}
    (h : l.find? p = none) : (l ++ l').find? p = l'.find? p := by
  induction l with
  | nil => rfl
  | cons a t ih =>
    rw [List.find?_cons] at h
    cases hb : p a with
    | true => rw [hb] at h; cases h
    | false =>
      rw [hb] at h
      rw [List.cons_append, List.find?_cons, hb]
      exact ih h

lemma not_mem_phone_of_find?_none {store : List ConvRow} {q : String}
    (h : store.find? (fun r => r.phone == q) = none) :
    q ∉ store.map ConvRow.phone := by
  rw [List.find?_eq_none] at h
  intro hmem
  obtain ⟨r, hr, hrq⟩ := List.mem_map.mp hmem
  exact h r hr (by simp [hrq])

/-- C7: `set_conversation_state` upserts the single row keyed by the
normalized identity — phones stay pairwise distinct, and a read-back
returns exactly the freshly stored flow/step/data, overwriting anything
prior; `clear_conversation_state` nulls flow/step/data while the row itself
survives, so a subsequent get still returns a row with no active flow. -/
theorem c7_conversation_state_upsert_clear :
    ∀ (store : List ConvRow) (p flow step : String)
      (data : Option (List (String × String))),
      ((store.map ConvRow.phone).Nodup →
        ((setConvState store p flow step data).map ConvRow.phone).Nodup) ∧
      getConvState (setConvState store p flow step data) p =
        some { phone := normalizePhone p, currentFlow := some flow,
               currentStep := some step, flowData := some (data.getD []) } ∧
      (∀ r, getConvState store p = some r →
        getConvState (clearConvState store p) p =
          some { phone := r.phone, currentFlow := none, currentStep := none,
                 flowData := none }) := by
  intro store p flow step data
  refine ⟨?_, ?_, ?_⟩
  · intro hnd
    unfold setConvState
    dsimp only
    cases hfind : store.find? (fun r => r.phone == normalizePhone p) with
    | some r =>
      rw [updateConvFirst_map_phone store (normalizePhone p)
        (fun r => { r with currentFlow := some flow, currentStep := some step,
                           flowData := some (data.getD []) })
        (fun r => rfl)]
      exact hnd
    | none =>
      rw [List.map_append]
      rw [List.nodup_append]
      refine ⟨hnd, by simp, ?_⟩
      intro x hx hx'
      simp only [List.map_cons, List.map_nil, List.mem_singleton] at hx'
      subst hx'
      exact not_mem_phone_of_find?_none hfind hx
  · unfold setConvState getConvState
    dsimp only
    cases hfind : store.find? (fun r => r.phone == normalizePhone p) with
    | some r =>
      have hr : r.phone = normalizePhone p := by
        have := List.find?_some hfind
        simpa using this
      rw [find?_updateConvFirst_self
        (fun r => { r with currentFlow := some flow, currentStep := some step,
                           flowData := some (data.getD []) })
        (fun x => rfl) hfind]
      rw [hr]
    | none =>
      rw [find?_append_of_none hfind]
      rw [List.find?_cons]
      simp
  · intro r hr
    unfold getConvState at hr ⊢
    unfold clearConvState
    rw [find?_updateConvFirst_self
      (fun r => { r with currentFlow := none, currentStep := none, flowData := none })
      (fun x => rfl) hr]

/-- Witness for `c7_conversation_state_upsert_clear`: a store that already
holds a booking flow for the identity "+91 98765" (stored under the
normalized phone) gets overwritten by a checkin flow, and clearing then
leaves the row with no active flow. -/
theorem c7_conversation_state_upsert_clear_witness :
    (([{ phone := "9198765", currentFlow := some "booking", currentStep := some "confirm", flowData := some [("selected_class_id", "7")] }] : List ConvRow).map ConvRow.phone).Nodup ∧
    ((setConvState [{ phone := "9198765", currentFlow := some "booking", currentStep := some "confirm", flowData := some [("selected_class_id", "7")] }] "+91 98765" "checkin" "weight" none).map ConvRow.phone).Nodup ∧
    getConvState (setConvState [{ phone := "9198765", currentFlow := some "booking", currentStep := some "confirm", flowData := some [("selected_class_id", "7")] }] "+91 98765" "checkin" "weight" none) "+91 98765" = some { phone := normalizePhone "+91 98765", currentFlow := some "checkin", currentStep := some "weight", flowData := some [] } ∧
    getConvState (clearConvState [{ phone := "9198765", currentFlow := some "booking", currentStep := some "confirm", flowData := some [("selected_class_id", "7")] }] "+91 98765") "+91 98765" = some { phone := "9198765", currentFlow := none, currentStep := none, flowData := none } :=
  ⟨by decide,
    (c7_conversation_state_upsert_clear [{ phone := "9198765", currentFlow := some "booking", currentStep := some "confirm", flowData := some [("selected_class_id", "7")] }] "+91 98765" "checkin" "weight" none).1 (by decide),
    (c7_conversation_state_upsert_clear [{ phone := "9198765", currentFlow := some "booking", currentStep := some "confirm", flowData := some [("selected_class_id", "7")] }] "+91 98765" "checkin" "weight" none).2.1,
    (c7_conversation_state_upsert_clear [{ phone := "9198765", currentFlow := some "booking", currentStep := some "confirm", flowData := some [("selected_class_id", "7")] }] "+91 98765" "checkin" "weight" none).2.2 { phone := "9198765", currentFlow := some "booking", currentStep := some "confirm", flowData := some [("selected_class_id", "7")] } (by decide)⟩

/-!
## Message orchestrator

Embeds `MessageHandler.handle`, `_continue_flow`, `_handle_active_member`,
`_start_onboarding` and `_handle_checkin_flow` (`app/flows/handlers.py`) and
the catch-all of `receive_message` (`app/routers/webhooks.py`, lines
143–157).  The external collaborators (intent classifier, messaging
gateway, onboarding/booking step internals, workout services) are outside
this core: routing into them is recorded as an `Action` tag.  Python string
helpers are modelled structurally on `List Char`.
-/

/-- `content.split(sep)` on characters. -/
def splitOnChar (sep : Char) : List Char → List (List Char)
  | [] => [[]]
  | ch :: rest =>
      match splitOnChar sep rest with
      | [] => [[]]
      | g :: gs => if ch = sep then [] :: g :: gs else (ch :: g) :: gs

/-- `content.split(sep)` on strings. -/
def pySplit (sep : Char) (q : String) : List String :=
  (splitOnChar sep q.data).map String.mk

/-- `q.startswith(pre)`. -/
def strStartsWith (pre q : String) : Bool :=
  pre.data.isPrefixOf q.data

/-- Digits-only value of a character list (`none` when empty or
non-numeric). -/
def digitsVal? (cs : List Char) : Option Nat :=
  if cs.isEmpty then none
  else if cs.all Char.isDigit then
    some (cs.foldl (fun n ch => n * 10 + (ch.toNat - 48)) 0)
  else none

/-- Python `int(q)` for the plain decimal forms arriving here (optional
sign, surrounding whitespace; underscores between digits are not
modelled). -/
def pyInt? (q : String) : Option Int :=
  match pyStrip q.data with
  | '-' :: rest => (digitsVal? rest).map (fun n => -(n : Int))
  | '+' :: rest => (digitsVal? rest).map (fun n => (n : Int))
  | rest => (digitsVal? rest).map (fun n => (n : Int))

/-- Whether Python `float(q)` succeeds, for the plain decimal literals
arriving here (optional sign, at most one dot, at least one digit; exponent
and inf/nan forms are not modelled). -/
def floatLitOk (q : String) : Bool :=
  let cs := pyStrip q.data
  let body := match cs with
    | '+' :: t => t
    | '-' :: t => t
    | t => t
  body.any Char.isDigit &&
  body.all (fun ch => ch.isDigit || ch = '.') &&
  decide ((body.filter (fun ch => ch = '.')).length ≤ 1)

/-- `content.replace("kg", "")` (left-to-right, non-overlapping). -/
def removeKg : List Char → List Char
  | 'k' :: 'g' :: rest => removeKg rest
  | ch :: rest => ch :: removeKg rest
  | [] => []

/-- Python exceptions the modelled paths can raise. -/
inductive PyErr
  | valueError
  | attributeError
deriving DecidableEq, Repr

/-- The `Member` row fields the orchestrator reads. -/
structure MemberRec where
  phone : String
  name : String
  onboardingCompleted : Bool
  onboardingStep : Option String
deriving DecidableEq, Repr

/-- A parsed inbound message (`from` / `content` / `name` keys). -/
structure InMsg where
  fromPhone : String
  content : String
  senderName : String
deriving DecidableEq, Repr

/-- Outbound payload shapes the modelled checkin flow produces; button
payloads are tagged by the prompt they carry. -/
inductive ChatResp
  | text (s : String)
  | buttons (prompt : String)
  | checkinComplete
deriving DecidableEq, Repr

/-- Which branch of the orchestrator consumed the message.  Routing into the
onboarding/booking step handlers and into the intent classifier are external
boundaries recorded as tags. -/
inductive Action
  | stepOnboarding
  | stepBooking
  | checkinReply (r : ChatResp)
  | escalatedReply
  | startOnboarding
  | resumeOnboarding
  | onboardingButtons
  | classified
deriving DecidableEq, Repr

/-- `true` exactly when `ai_engine.classify_intent` was invoked. -/
def usedClassifier : Action → Bool
  | .classified => true
  | _ => false

/-- `MemberService.get_by_phone`: match the raw, normalized, or
plus-prefixed normalized phone. -/
def memberLookup (members : List MemberRec) (p : String) : Option MemberRec :=
  members.find? (fun mem =>
    mem.phone == p || mem.phone == normalizePhone p ||
    mem.phone == "+" ++ normalizePhone p)

/-- `MessageHandler._handle_checkin_flow`.  `flow_data` values are carried
as their source text; a failing `int()` on an `energy_`-prefixed button id
raises (uncaught), and a missing member raises `AttributeError` at the
first `member.phone` access. -/
def handleCheckinStep (store : List ConvRow) (mem : Option MemberRec)
    (cs : ConvRow) (msg : InMsg) : Except PyErr (List ConvRow × ChatResp) :=
  let content := pyStripStr msg.content
  let data := cs.flowData.getD []
  if cs.currentStep == some "weight" then
    let wstr := pyStripStr (String.mk (removeKg content.data))
    if floatLitOk wstr then
      match mem with
      | none => .error .attributeError
      | some memb =>
          .ok (setConvState store memb.phone "checkin" "energy"
                (some (data ++ [("weight", wstr)])),
              .buttons "energy")
    else
      .ok (store, .text "Please enter your weight as a number (e.g., 72.5 or 72.5kg)")
  else if cs.currentStep == some "energy" then
    if strStartsWith "energy_" content then
      match pyInt? (String.mk ((splitOnChar '_' content.data).getD 1 [])) with
      | none => .error .valueError
      | some _ =>
          match mem with
          | none => .error .attributeError
          | some memb =>
              .ok (setConvState store memb.phone "checkin" "compliance"
                    (some (data ++ [("energy", String.mk ((splitOnChar '_' content.data).getD 1 []))])),
                  .buttons "compliance")
    else
      match pyInt? content with
      | none => .ok (store, .text "Please select an energy level or type a number 1-5")
      | some _ =>
          match mem with
          | none => .error .attributeError
          | some memb =>
              .ok (setConvState store memb.phone "checkin" "compliance"
                    (some (data ++ [("energy", content)])),
                  .buttons "compliance")
  else if cs.currentStep == some "compliance" then
    match mem with
    | none => .error .attributeError
    | some memb => .ok (clearConvState store memb.phone, .checkinComplete)
  else
    .ok (store, .text "Something went wrong. Let's start over. Reply *checkin* when ready.")

/-- `MessageHandler._handle_active_member` up to its external boundaries:
`goal_`/`diet_` button ids resume onboarding without classification, every
other content is classified first. -/
def handleActiveMember (store : List ConvRow) (members : List MemberRec)
    (msg : InMsg) : List ConvRow × List MemberRec × Action :=
  let content := pyStripStr msg.content
  if strStartsWith "goal_" content || strStartsWith "diet_" content then
    (store, members, .onboardingButtons)
  else
    (store, members, .classified)

/-- `MessageHandler._start_onboarding`: create a minimal member (normalized
phone, default onboarding step "welcome") and start the onboarding flow at
`goal_selection`. -/
def startOnboardingNewLead (store : List ConvRow) (members : List MemberRec)
    (msg : InMsg) : List ConvRow × List MemberRec × Action :=
  let leadName := if msg.senderName == "Unknown" then "New Member" else msg.senderName
  let newMem : MemberRec :=
    { phone := normalizePhone msg.fromPhone, name := leadName,
      onboardingCompleted := false, onboardingStep := some "welcome" }
  (setConvState store newMem.phone "onboarding" "goal_selection" (some [("name", newMem.name)]),
   members ++ [newMem], .startOnboarding)

/-- `MessageHandler._continue_flow`. -/
def continueFlow (store : List ConvRow) (members : List MemberRec)
    (cs : ConvRow) (mem : Option MemberRec) (msg : InMsg) (f : String) :
    Except PyErr (List ConvRow × List MemberRec × Action) :=
  if f == "onboarding" then .ok (store, members, .stepOnboarding)
  else if f == "booking" then .ok (store, members, .stepBooking)
  else if f == "checkin" then
    match handleCheckinStep store mem cs msg with
    | .ok (store', r) => .ok (store', members, .checkinReply r)
    | .error e => .error e
  else if f == "escalated" then .ok (store, members, .escalatedReply)
  else
    .ok (handleActiveMember (clearConvState store msg.fromPhone) members msg)

/-- The branches of `handle` below the active-flow check, in source
order. -/
def handleNoFlow (store : List ConvRow) (members : List MemberRec)
    (mem : Option MemberRec) (msg : InMsg) :
    Except PyErr (List ConvRow × List MemberRec × Action) :=
  match mem with
  | none => .ok (startOnboardingNewLead store members msg)
  | some memb =>
      if !memb.onboardingCompleted then .ok (store, members, .resumeOnboarding)
      else .ok (handleActiveMember store members msg)

/-- `MessageHandler.handle`: an active (non-empty) stored flow is continued
before any other branch; otherwise new-lead, resume-onboarding, then
classify-and-dispatch. -/
def handle (store : List ConvRow) (members : List MemberRec) (msg : InMsg) :
    Except PyErr (List ConvRow × List MemberRec × Action) :=
  let mem := memberLookup members msg.fromPhone
  match getConvState store msg.fromPhone with
  | some cs =>
      match cs.currentFlow with
      | some f =>
          if f ≠ "" then continueFlow store members cs mem msg f
          else handleNoFlow store members mem msg
      | none => handleNoFlow store members mem msg
  | none => handleNoFlow store members mem msg

/-- HTTP body of `receive_message`: ok status with the handled action, or
the catch-all's `{"status": "error"}` (still HTTP 200, nothing sent to the
user). -/
inductive WebhookOut
  | okStatus (a : Action)
  | errorStatus (e : PyErr)
deriving DecidableEq, Repr

/-- The main-processing path of `receive_message` (after the media,
escalation and ambiguity pre-branches, which belong to external
collaborators): run `handle` inside the catch-all `try`. -/
def webhookProcess (store : List ConvRow) (members : List MemberRec)
    (msg : InMsg) : List ConvRow × List MemberRec × WebhookOut :=
  match handle store members msg with
  | .ok (store', members', a) => (store', members', .okStatus a)
  | .error e => (store, members, .errorStatus e)

/-- The flow names the source ever stores in `current_flow`
(`onboarding.py`/`booking.py`/`handlers.py` `set_conversation_state` calls
and `mark_for_escalation`). -/
def knownFlows : List String := ["onboarding", "booking", "checkin", "escalated"]

/-- The stored flow, when the `conv_state and conv_state.current_flow`
truthiness check of `handle` passes. -/
def activeFlowOf (store : List ConvRow) (p : String) : Option String :=
  match getConvState store p with
  | some cs =>
      match cs.currentFlow with
      | some f => if f = "" then none else some f
      | none => none
  | none => none

/-- The action `_continue_flow` takes for each known flow. -/
def flowActionMatches (f : String) : Action → Bool
  | .stepOnboarding => f == "onboarding"
  | .stepBooking => f == "booking"
  | .checkinReply _ => f == "checkin"
  | .escalatedReply => f == "escalated"
  | _ => false

instance {eps alpha : Type} [DecidableEq eps] [DecidableEq alpha] :
    DecidableEq (Except eps alpha) := fun a b =>
  match a, b with
  | .ok x, .ok y =>
      if h : x = y then isTrue (by rw [h]) else isFalse (by intro hc; cases hc; exact h rfl)
  | .error x, .error y =>
      if h : x = y then isTrue (by rw [h]) else isFalse (by intro hc; cases hc; exact h rfl)
  | .ok _, .error _ => isFalse (by intro hc; cases hc)
  | .error _, .ok _ => isFalse (by intro hc; cases hc)

/-- C8: with an active non-empty stored flow among the flows the source ever
stores, `handle` routes the message to that flow's continuation and never
reaches the intent classifier, whatever the content; with no active flow, it
falls through in source order: unknown phone starts onboarding (creating a
minimal member), an incomplete profile resumes onboarding, and only a
complete profile reaches classify-and-dispatch. -/
theorem c8_active_flow_takes_priority :
    ∀ (store : List ConvRow) (members : List MemberRec) (msg : InMsg),
      (∀ f, activeFlowOf store msg.fromPhone = some f → f ∈ knownFlows →
        ∀ store' members' a,
          handle store members msg = .ok (store', members', a) →
          flowActionMatches f a = true ∧ usedClassifier a = false) ∧
      (activeFlowOf store msg.fromPhone = none →
        (memberLookup members msg.fromPhone = none →
          handle store members msg = .ok (startOnboardingNewLead store members msg)) ∧
        (∀ memb, memberLookup members msg.fromPhone = some memb →
          memb.onboardingCompleted = false →
          handle store members msg = .ok (store, members, .resumeOnboarding)) ∧
        (∀ memb, memberLookup members msg.fromPhone = some memb →
          memb.onboardingCompleted = true →
          handle store members msg = .ok (handleActiveMember store members msg))) := by
  intro store members msg
  constructor
  · intro f hf hknown store' members' a hrun
    unfold activeFlowOf at hf
    unfold handle at hrun
    cases hcs : getConvState store msg.fromPhone with
    | none => rw [hcs] at hf; cases hf
    | some cs =>
      rw [hcs] at hf hrun
      dsimp only at hf hrun
      cases hflow : cs.currentFlow with
      | none => rw [hflow] at hf; cases hf
      | some f' =>
        rw [hflow] at hf hrun
        dsimp only at hf hrun
        by_cases hemp : f' = ""
        · rw [if_pos hemp] at hf; cases hf
        · rw [if_neg hemp] at hf
          cases hf
          rw [if_pos hemp] at hrun
          have hmem4 : f = "onboarding" ∨ f = "booking" ∨ f = "checkin" ∨ f = "escalated" := by
            simpa [knownFlows] using hknown
          rcases hmem4 with rfl | rfl | rfl | rfl
          · have hcf : continueFlow store members cs
                (memberLookup members msg.fromPhone) msg "onboarding" =
                .ok (store, members, .stepOnboarding) := rfl
            rw [hcf] at hrun
            cases hrun
            exact ⟨rfl, rfl⟩
          · have hcf : continueFlow store members cs
                (memberLookup members msg.fromPhone) msg "booking" =
                .ok (store, members, .stepBooking) := rfl
            rw [hcf] at hrun
            cases hrun
            exact ⟨rfl, rfl⟩
          · have hcf : continueFlow store members cs
                (memberLookup members msg.fromPhone) msg "checkin" =
                match handleCheckinStep store (memberLookup members msg.fromPhone) cs msg with
                | .ok (store', r) => .ok (store', members, .checkinReply r)
                | .error e => .error e := rfl
            rw [hcf] at hrun
            cases hchk : handleCheckinStep store (memberLookup members msg.fromPhone) cs msg with
            | ok sr =>
              obtain ⟨s', r⟩ := sr
              rw [hchk] at hrun
              cases hrun
              exact ⟨rfl, rfl⟩
            | error e =>
              rw [hchk] at hrun
              cases hrun
          · have hcf : continueFlow store members cs
                (memberLookup members msg.fromPhone) msg "escalated" =
                .ok (store, members, .escalatedReply) := rfl
            rw [hcf] at hrun
            cases hrun
            exact ⟨rfl, rfl⟩
  · intro hf
    have hnof : handle store members msg =
        handleNoFlow store members (memberLookup members msg.fromPhone) msg := by
      unfold activeFlowOf at hf
      unfold handle
      cases hcs : getConvState store msg.fromPhone with
      | none => rfl
      | some cs =>
        rw [hcs] at hf
        dsimp only at hf ⊢
        cases hflow : cs.currentFlow with
        | none => rfl
        | some f' =>
          rw [hflow] at hf
          dsimp only at hf ⊢
          by_cases hemp : f' = ""
          · rw [if_neg (not_ne_iff.mpr hemp)]
          · rw [if_neg hemp] at hf
            cases hf
    refine ⟨?_, ?_, ?_⟩
    · intro hml
      rw [hnof]
      unfold handleNoFlow
      rw [hml]
    · intro memb hml hincomplete
      rw [hnof]
      unfold handleNoFlow
      rw [hml]
      dsimp only
      rw [hincomplete]
      rfl
    · intro memb hml hcomplete
      rw [hnof]
      unfold handleNoFlow
      rw [hml]
      dsimp only
      rw [hcomplete]
      rfl

/-- Witness for `c8_active_flow_takes_priority`: a member with a stored
booking flow at `select_class` sends the unrelated text "hours?", and
`handle` still routes to the booking step handler without classifying. -/
theorem c8_active_flow_takes_priority_witness :
    activeFlowOf [{ phone := "911", currentFlow := some "booking", currentStep := some "select_class", flowData := some [] }] "911" = some "booking" ∧
    "booking" ∈ knownFlows ∧
    handle [{ phone := "911", currentFlow := some "booking", currentStep := some "select_class", flowData := some [] }]
      [{ phone := "911", name := "Sam", onboardingCompleted := true, onboardingStep := none }]
      { fromPhone := "911", content := "hours?", senderName := "Sam" } =
      .ok ([{ phone := "911", currentFlow := some "booking", currentStep := some "select_class", flowData := some [] }],
           [{ phone := "911", name := "Sam", onboardingCompleted := true, onboardingStep := none }],
           .stepBooking) ∧
    (flowActionMatches "booking" .stepBooking = true ∧ usedClassifier .stepBooking = false) :=
  ⟨by decide, by decide, by decide,
    (c8_active_flow_takes_priority
        [{ phone := "911", currentFlow := some "booking", currentStep := some "select_class", flowData := some [] }]
        [{ phone := "911", name := "Sam", onboardingCompleted := true, onboardingStep := none }]
        { fromPhone := "911", content := "hours?", senderName := "Sam" }).1
      "booking" (by decide) (by decide)
      [{ phone := "911", currentFlow := some "booking", currentStep := some "select_class", flowData := some [] }]
      [{ phone := "911", name := "Sam", onboardingCompleted := true, onboardingStep := none }]
      .stepBooking (by decide)⟩

/-- C9 (amended): a step-handler exception — concretely, the uncaught
`int(content.split("_")[1])` `ValueError` of the checkin energy step —
propagates out of `handle` (the orchestrator catches nothing); only the
webhook boundary catches it, returning the error-status HTTP body with the
conversation store exactly as it was: the stored flow is not reset and no
retry prompt (indeed no outbound response at all) is produced. -/
theorem c9_handler_exception_caught_only_at_webhook :
    ∀ (store : List ConvRow) (members : List MemberRec) (msg : InMsg) (cs : ConvRow),
      getConvState store msg.fromPhone = some cs →
      cs.currentFlow = some "checkin" →
      cs.currentStep = some "energy" →
      strStartsWith "energy_" (pyStripStr msg.content) = true →
      pyInt? (String.mk ((splitOnChar '_' (pyStripStr msg.content).data).getD 1 [])) = none →
      handle store members msg = .error .valueError ∧
      webhookProcess store members msg = (store, members, .errorStatus .valueError) := by
  intro store members msg cs hcs hflow hstep hpre hparse
  have hchk : handleCheckinStep store (memberLookup members msg.fromPhone) cs msg =
      .error .valueError := by
    unfold handleCheckinStep
    dsimp only
    rw [hstep]
    rw [if_neg (by decide : ¬ (((some "energy" : Option String) == some "weight") = true))]
    rw [if_pos (by decide : ((some "energy" : Option String) == some "energy") = true)]
    rw [if_pos hpre]
    rw [hparse]
  have hrun : handle store members msg = .error .valueError := by
    unfold handle
    rw [hcs]
    dsimp only
    rw [hflow]
    dsimp only
    rw [if_pos (by decide : ("checkin" : String) ≠ "")]
    have hcf : continueFlow store members cs
        (memberLookup members msg.fromPhone) msg "checkin" =
        match handleCheckinStep store (memberLookup members msg.fromPhone) cs msg with
        | .ok (store', r) => .ok (store', members, .checkinReply r)
        | .error e => .error e := rfl
    rw [hcf, hchk]
  refine ⟨hrun, ?_⟩
  unfold webhookProcess
  rw [hrun]

/-- Witness for `c9_handler_exception_caught_only_at_webhook`: a member in
the checkin flow at step `energy` sends the malformed button id
"energy_x". -/
theorem c9_handler_exception_caught_only_at_webhook_witness :
    getConvState [{ phone := "911", currentFlow := some "checkin", currentStep := some "energy", flowData := some [("weight", "72")] }] "911" =
      some { phone := "911", currentFlow := some "checkin", currentStep := some "energy", flowData := some [("weight", "72")] } ∧
    strStartsWith "energy_" (pyStripStr "energy_x") = true ∧
    pyInt? (String.mk ((splitOnChar '_' (pyStripStr "energy_x").data).getD 1 [])) = none ∧
    (handle [{ phone := "911", currentFlow := some "checkin", currentStep := some "energy", flowData := some [("weight", "72")] }]
        [{ phone := "911", name := "Sam", onboardingCompleted := true, onboardingStep := none }]
        { fromPhone := "911", content := "energy_x", senderName := "Sam" } = .error .valueError ∧
      webhookProcess [{ phone := "911", currentFlow := some "checkin", currentStep := some "energy", flowData := some [("weight", "72")] }]
        [{ phone := "911", name := "Sam", onboardingCompleted := true, onboardingStep := none }]
        { fromPhone := "911", content := "energy_x", senderName := "Sam" } =
        ([{ phone := "911", currentFlow := some "checkin", currentStep := some "energy", flowData := some [("weight", "72")] }],
         [{ phone := "911", name := "Sam", onboardingCompleted := true, onboardingStep := none }],
         .errorStatus .valueError)) :=
  ⟨by decide, by decide, by decide,
    c9_handler_exception_caught_only_at_webhook
      [{ phone := "911", currentFlow := some "checkin", currentStep := some "energy", flowData := some [("weight", "72")] }]
      [{ phone := "911", name := "Sam", onboardingCompleted := true, onboardingStep := none }]
      { fromPhone := "911", content := "energy_x", senderName := "Sam" }
      { phone := "911", currentFlow := some "checkin", currentStep := some "energy", flowData := some [("weight", "72")] }
      (by decide) (by decide) (by decide) (by decide) (by decide)⟩

/-- C9 counterexample to the claim as frozen: for the raising step handler
(checkin energy step on content "energy_x"), message processing ends in the
webhook catch-all with an error-status body; the stored flow is still
`checkin` at step `energy` — not reset to the flow's initial step — and no
generic retry prompt is produced as the outbound response. -/
theorem c9_no_flow_reset_no_retry_prompt :
    webhookProcess [{ phone := "911", currentFlow := some "checkin", currentStep := some "energy", flowData := some [("weight", "72")] }]
      [{ phone := "911", name := "Sam", onboardingCompleted := true, onboardingStep := none }]
      { fromPhone := "911", content := "energy_x", senderName := "Sam" } =
      ([{ phone := "911", currentFlow := some "checkin", currentStep := some "energy", flowData := some [("weight", "72")] }],
       [{ phone := "911", name := "Sam", onboardingCompleted := true, onboardingStep := none }],
       .errorStatus .valueError) ∧
    getConvState (webhookProcess [{ phone := "911", currentFlow := some "checkin", currentStep := some "energy", flowData := some [("weight", "72")] }]
      [{ phone := "911", name := "Sam", onboardingCompleted := true, onboardingStep := none }]
      { fromPhone := "911", content := "energy_x", senderName := "Sam" }).1 "911" =
      some { phone := "911", currentFlow := some "checkin", currentStep := some "energy", flowData := some [("weight", "72")] } := by
  decide

end Chat
